import Mathlib

/-!
Verification of the forensiq retrieval-augmented technique-matching and
adaptive-monitoring pipeline, shallowly embedded from the Python sources.
Python floats are modelled as rationals (the formulas under scrutiny are
exact arithmetic), fallible external calls as explicit outcome values, and
the monitoring loop as a step function on an explicit state.
-/

namespace Forensiq

/-! ## Distance-to-relevance normalization

`ChromaDBService.search_techniques` (chromadb_service.py, lines 178-183):
`clamped_distance = max(0, min(distance, 2.0)); relevance_score = 1.0 - clamped_distance / 2.0`,
and `relevance_score = 0.0` when the backing result carries no distance.
-/

def chromadb_relevance (distance : Option ℚ) : ℚ :=
  match distance with
  | some d => 1 - (max 0 (min d 2)) / 2
  | none => 0

/-- Normalization used by `AWSBedrockService.search_mitre_techniques`
(aws_bedrock_service.py, lines 130-135): `relevance_score = max(0, 1 - distance)`,
and `0.0` when no distance is present. -/
def titan_relevance (distance : Option ℚ) : ℚ :=
  match distance with
  | some d => max 0 (1 - d)
  | none => 0

/-- C1 — counterexample. The claim says every distance-to-relevance
normalization used by technique search computes `1 - clamp(d, 0, 2) / 2`;
the AWS Titan search path computes `max(0, 1 - d)` instead, and the two
disagree at distance `d = 3/2` (`0` versus `1/4`). -/
theorem C1_counterexample :
    titan_relevance (some (3/2)) ≠ 1 - (max 0 (min (3/2 : ℚ) 2)) / 2 := by
  norm_num [titan_relevance]

/-- C1 — amended. The ChromaDB search path normalizes cosine distance `d` by
`1 - clamp(d, 0, 2) / 2` while the AWS Titan search path uses `max(0, 1 - d)`.
For any `d ∈ [0, 2]` both scores lie in `[0, 1]`, both equal `1` at `d = 0`
and `0` at `d = 2`, both are monotonically non-increasing in `d`, and the
ChromaDB formula is strictly decreasing on `[0, 2]` (the Titan one is not:
it is constantly `0` on `[1, 2]`). -/
theorem C1_amended :
    (∀ d : ℚ, 0 ≤ d → d ≤ 2 →
      (0 ≤ chromadb_relevance (some d) ∧ chromadb_relevance (some d) ≤ 1) ∧
      (0 ≤ titan_relevance (some d) ∧ titan_relevance (some d) ≤ 1)) ∧
    chromadb_relevance (some 0) = 1 ∧ chromadb_relevance (some 2) = 0 ∧
    titan_relevance (some 0) = 1 ∧ titan_relevance (some 2) = 0 ∧
    (∀ d₁ d₂ : ℚ, d₁ ≤ d₂ →
      chromadb_relevance (some d₂) ≤ chromadb_relevance (some d₁) ∧
      titan_relevance (some d₂) ≤ titan_relevance (some d₁)) ∧
    (∀ d₁ d₂ : ℚ, 0 ≤ d₁ → d₁ < d₂ → d₂ ≤ 2 →
      chromadb_relevance (some d₂) < chromadb_relevance (some d₁)) := by
  refine ⟨?_, by norm_num [chromadb_relevance], by norm_num [chromadb_relevance],
    by norm_num [titan_relevance], by norm_num [titan_relevance], ?_, ?_⟩
  · intro d h0 h2
    simp only [chromadb_relevance, titan_relevance]
    constructor
    · constructor
      · have h1 : max 0 (min d 2) ≤ 2 := by
          simp [max_le_iff, min_le_iff]
        linarith
      · have h1 : (0:ℚ) ≤ max 0 (min d 2) := le_max_left 0 _
        linarith
    · constructor
      · exact le_max_left 0 _
      · have h1 : 1 - d ≤ 1 := by linarith
        simp only [max_le_iff]
        exact ⟨by norm_num, h1⟩
  · intro d₁ d₂ h
    simp only [chromadb_relevance, titan_relevance]
    constructor
    · have h1 : max 0 (min d₁ 2) ≤ max 0 (min d₂ 2) :=
        max_le_max le_rfl (min_le_min h le_rfl)
      linarith
    · exact max_le_max le_rfl (by linarith)
  · intro d₁ d₂ h0 hlt h2
    simp only [chromadb_relevance]
    have e1 : max 0 (min d₁ 2) = d₁ := by
      rw [min_eq_left (by linarith), max_eq_right h0]
    have e2 : max 0 (min d₂ 2) = d₂ := by
      rw [min_eq_left h2, max_eq_right (by linarith)]
    rw [e1, e2]
    linarith

/-- C1 — witness for the amended theorem, instantiated at distance `1`. -/
theorem C1_amended_witness :
    (0 ≤ chromadb_relevance (some 1) ∧ chromadb_relevance (some 1) ≤ 1) ∧
    (0 ≤ titan_relevance (some 1) ∧ titan_relevance (some 1) ≤ 1) :=
  C1_amended.1 1 (by norm_num) (by norm_num)

/-! ## Technique search over the backing vector index

One row of the backing index's query response, as consumed by
`ChromaDBService.search_techniques` (chromadb_service.py, lines 169-194):
the metadata fields `technique_id`, `name`, `description`,
`kill_chain_phases`, `platforms` (the latter two comma-joined strings),
the matched `document`, and the cosine `distance`
(`None` when the response carries no distances). -/

structure ChromaRow where
  technique_id : String
  name : String
  description : String
  kill_chain_phases : String
  platforms : String
  document : String
  distance : Option ℚ
deriving DecidableEq

/-- Technique dictionary built per row by `ChromaDBService.search_techniques`
(chromadb_service.py, lines 185-193). -/
structure TechniqueDict where
  technique_id : String
  name : String
  description : String
  kill_chain_phases : List String
  platforms : List String
  relevance_score : ℚ
  document : String
deriving DecidableEq

/-- Comma splitting on the character sequence, as Python's `str.split(',')`. -/
def split_commas : List Char → List Char → List (List Char)
  | [], acc => [acc.reverse]
  | c :: cs, acc =>
    if c = ',' then acc.reverse :: split_commas cs []
    else split_commas cs (c :: acc)

/-- Comma splitting used for the metadata fields:
`metadata.get('kill_chain_phases', '').split(',') if metadata.get('kill_chain_phases') else []`. -/
def split_csv (s : String) : List String :=
  if s ≠ "" then (split_commas s.data []).map String.mk else []

def row_to_technique (r : ChromaRow) : TechniqueDict :=
  { technique_id := r.technique_id
    name := r.name
    description := r.description
    kill_chain_phases := split_csv r.kill_chain_phases
    platforms := split_csv r.platforms
    relevance_score := chromadb_relevance r.distance
    document := r.document }

/-- `ChromaDBService.search_techniques`, from the backing query response on:
one technique dictionary per returned row, in response order
(chromadb_service.py, lines 169-197). -/
def search_techniques (rows : List ChromaRow) : List TechniqueDict :=
  rows.map row_to_technique

/-- Ordering contract of the backing index on one query response: rows are
ranked by ascending distance; either every row carries a distance or
(when the response has no `distances` key) none does. -/
def distOrd (a b : ChromaRow) : Prop :=
  match a.distance, b.distance with
  | some da, some db => da ≤ db
  | none, none => True
  | _, _ => False

instance : DecidableRel distOrd := by
  intro a b
  unfold distOrd
  match a.distance, b.distance with
  | some da, some db => exact inferInstanceAs (Decidable (da ≤ db))
  | none, none => exact inferInstanceAs (Decidable True)
  | some _, none => exact inferInstanceAs (Decidable False)
  | none, some _ => exact inferInstanceAs (Decidable False)

/-- Response model `AttackTechnique` (logs_model.py, lines 11-18); the
`analyze_logs` route builds one per technique dictionary
(analysis.py, lines 79-89). -/
structure AttackTechnique where
  technique_id : String
  name : String
  description : String
  kill_chain_phases : List String
  platforms : List String
  relevance_score : ℚ
deriving DecidableEq

def to_attack_technique (t : TechniqueDict) : AttackTechnique :=
  { technique_id := t.technique_id
    name := t.name
    description := t.description
    kill_chain_phases := t.kill_chain_phases
    platforms := t.platforms
    relevance_score := t.relevance_score }

/-- The `matched_techniques` sequence of the report produced by the
`/analyze` route, as a function of the backing index's response rows
(analysis.py, lines 71-89). -/
def analyze_matched_techniques (rows : List ChromaRow) : List AttackTechnique :=
  (search_techniques rows).map to_attack_technique

theorem chromadb_relevance_antitone_of_distOrd {a b : ChromaRow} (h : distOrd a b) :
    chromadb_relevance b.distance ≤ chromadb_relevance a.distance := by
  unfold distOrd at h
  unfold chromadb_relevance
  match ha : a.distance, hb : b.distance with
  | some da, some db =>
    rw [ha, hb] at h
    have h1 : max 0 (min da 2) ≤ max 0 (min db 2) :=
      max_le_max le_rfl (min_le_min h le_rfl)
    simp only
    linarith
  | none, none => exact le_rfl
  | some _, none => rw [ha, hb] at h; exact absurd h not_false
  | none, some _ => rw [ha, hb] at h; exact absurd h not_false

theorem chromadb_relevance_mem_unit (d : Option ℚ) :
    0 ≤ chromadb_relevance d ∧ chromadb_relevance d ≤ 1 := by
  unfold chromadb_relevance
  match d with
  | some x =>
    constructor
    · have h1 : max 0 (min x 2) ≤ 2 := by simp [max_le_iff, min_le_iff]
      simp only
      linarith
    · have h1 : (0:ℚ) ≤ max 0 (min x 2) := le_max_left 0 _
      simp only
      linarith
  | none => norm_num

/-- C2 — report ordering and score bounds. Whenever the backing index returns
its rows ranked by ascending distance (its documented contract), the
`matched_techniques` sequence of the report produced by the `/analyze` route
is sorted descending by `relevance_score`, and every `relevance_score` in
the report lies in `[0, 1]` (the latter for any response whatsoever). -/
theorem C2_report_ordering (rows : List ChromaRow) (h : rows.Pairwise distOrd) :
    (analyze_matched_techniques rows).Pairwise
      (fun a b => b.relevance_score ≤ a.relevance_score) ∧
    ∀ t ∈ analyze_matched_techniques rows,
      0 ≤ t.relevance_score ∧ t.relevance_score ≤ 1 := by
  constructor
  · unfold analyze_matched_techniques search_techniques
    rw [List.map_map, List.pairwise_map]
    exact h.imp (fun hab => chromadb_relevance_antitone_of_distOrd hab)
  · intro t ht
    unfold analyze_matched_techniques search_techniques at ht
    rw [List.map_map, List.mem_map] at ht
    obtain ⟨r, _, rfl⟩ := ht
    exact chromadb_relevance_mem_unit r.distance

/-- C2 — witness: a concrete three-row response with ascending distances. -/
theorem C2_report_ordering_witness :
    (analyze_matched_techniques
      [⟨"T1059", "a", "", "", "", "d1", some (1/10)⟩,
       ⟨"T1566", "b", "", "", "", "d2", some (1/2)⟩,
       ⟨"T1003", "c", "", "", "", "d3", some (3/2)⟩]).Pairwise
      (fun a b => b.relevance_score ≤ a.relevance_score) ∧
    ∀ t ∈ analyze_matched_techniques
      [⟨"T1059", "a", "", "", "", "d1", some (1/10)⟩,
       ⟨"T1566", "b", "", "", "", "d2", some (1/2)⟩,
       ⟨"T1003", "c", "", "", "", "d3", some (3/2)⟩],
      0 ≤ t.relevance_score ∧ t.relevance_score ≤ 1 :=
  C2_report_ordering _ (by
    refine List.Pairwise.cons ?_ (List.Pairwise.cons ?_ (List.pairwise_singleton _ _))
    · intro b hb
      simp only [List.mem_cons, List.mem_singleton] at hb
      rcases hb with rfl | rfl | h
      · unfold distOrd; norm_num
      · unfold distOrd; norm_num
      · exact absurd h (List.not_mem_nil b)
    · intro b hb
      simp only [List.mem_singleton] at hb
      subst hb
      unfold distOrd; norm_num)

/-! ## Deduplication behaviour of the search paths -/

/-- Two backing rows carrying the same technique id at distances `0.1` and
`0.4`, as in the claim's scenario. -/
def dup_rows : List ChromaRow :=
  [⟨"T1059", "Command and Scripting Interpreter", "", "", "", "chunk1", some (1/10)⟩,
   ⟨"T1059", "Command and Scripting Interpreter", "", "", "", "chunk2", some (2/5)⟩]

/-- C3 — counterexample. The claim says technique search deduplicates by
technique id, keeping only the highest-relevance occurrence. In fact
`search_techniques` maps every backing row to one output entry with no
deduplication: when the index returns the same technique id at distances
`0.1` and `0.4`, both occurrences appear in the result. -/
theorem C3_counterexample :
    ((search_techniques dup_rows).map (·.technique_id)) = ["T1059", "T1059"] ∧
    ¬ ((search_techniques dup_rows).map (·.technique_id)).Nodup := by
  constructor
  · rfl
  · decide

/-- Technique dictionary built per row by
`AWSBedrockService.search_mitre_techniques` (aws_bedrock_service.py,
lines 137-146): the same metadata fields, the Titan normalization, and the
fixed `embedding_model` tag. -/
structure TitanTechnique where
  technique_id : String
  name : String
  description : String
  kill_chain_phases : List String
  platforms : List String
  relevance_score : ℚ
  embedding_model : String
  document : String
deriving DecidableEq

def titan_row_to_technique (r : ChromaRow) : TitanTechnique :=
  { technique_id := r.technique_id
    name := r.name
    description := r.description
    kill_chain_phases := split_csv r.kill_chain_phases
    platforms := split_csv r.platforms
    relevance_score := titan_relevance r.distance
    embedding_model := "aws-titan-v2"
    document := r.document }

/-- `AWSBedrockService.search_mitre_techniques`, from the backing query
response on (aws_bedrock_service.py, lines 124-153): one technique
dictionary per returned row, then
`techniques.sort(key=lambda x: x['relevance_score'], reverse=True)` — a
stable descending sort by relevance score, modelled by the stable
`mergeSort`. -/
def search_mitre_techniques (rows : List ChromaRow) : List TitanTechnique :=
  (rows.map titan_row_to_technique).mergeSort
    (fun a b => decide (b.relevance_score ≤ a.relevance_score))

/-- Technique fields extracted from one knowledge-base chunk's text by
`BedrockService._extract_json_technique_info` (bedrock_service.py); the
JSON scraping itself is an external text parser here, only its output
shape matters to retrieval. -/
structure TechniqueInfo where
  id : String
  name : String
  description : String
  kill_chain_phases : List String
  platforms : List String

/-- One retrieval result chunk from the Bedrock knowledge base:
`content` text and similarity `score`. -/
structure KBChunk where
  content : String
  score : ℚ

/-- Technique entry assembled by `BedrockService.retrieve_and_summarize`
(bedrock_service.py, lines 155-172). -/
structure KBTechnique where
  technique_id : String
  name : String
  description : String
  kill_chain_phases : List String
  platforms : List String
  relevance_score : ℚ
deriving DecidableEq

/-- The chunk loop of `BedrockService.retrieve_and_summarize`
(bedrock_service.py, lines 145-173): chunks with `score < 0.3` are skipped;
a technique is appended only when its extracted id is not `'Unknown'` and
has not been processed yet (`processed_ids`), so the first qualifying
occurrence of each id is kept. -/
def retrieve_loop (extract_info : String → TechniqueInfo) :
    List KBChunk → List String → List KBTechnique
  | [], _ => []
  | c :: rest, processed =>
    if c.score < 3/10 then retrieve_loop extract_info rest processed
    else
      let info := extract_info c.content
      if info.id ≠ "Unknown" ∧ info.id ∉ processed then
        { technique_id := info.id
          name := info.name
          description := info.description
          kill_chain_phases := info.kill_chain_phases
          platforms := info.platforms
          relevance_score := c.score } :: retrieve_loop extract_info rest (info.id :: processed)
      else retrieve_loop extract_info rest processed

/-- Context texts collected by the same loop: exactly the contents of the
chunks whose score passes the `0.3` threshold (bedrock_service.py,
lines 153-158). -/
def retrieve_contexts (chunks : List KBChunk) : List String :=
  (chunks.filter (fun c => ¬ c.score < 3/10)).map (·.content)

theorem retrieve_loop_ids_nodup_aux (extract_info : String → TechniqueInfo)
    (chunks : List KBChunk) :
    ∀ processed : List String,
      ((retrieve_loop extract_info chunks processed).map (·.technique_id)).Nodup ∧
      ∀ t ∈ retrieve_loop extract_info chunks processed, t.technique_id ∉ processed := by
  induction chunks with
  | nil => intro processed; simp [retrieve_loop]
  | cons c rest ih =>
    intro processed
    unfold retrieve_loop
    by_cases hs : c.score < 3/10
    · simp only [if_pos hs]
      exact ih processed
    · simp only [if_neg hs]
      by_cases hc : (extract_info c.content).id ≠ "Unknown" ∧
          (extract_info c.content).id ∉ processed
      · simp only [if_pos hc]
        obtain ⟨ihn, ihp⟩ := ih ((extract_info c.content).id :: processed)
        refine ⟨?_, ?_⟩
        · rw [List.map_cons, List.nodup_cons]
          refine ⟨?_, ihn⟩
          intro hmem
          rw [List.mem_map] at hmem
          obtain ⟨t, ht, hid⟩ := hmem
          exact (ihp t ht) (by rw [hid]; exact List.mem_cons_self _ _)
        · intro t ht
          rw [List.mem_cons] at ht
          rcases ht with rfl | ht
          · exact hc.2
          · intro hmem
            exact (ihp t ht) (List.mem_cons_of_mem _ hmem)
      · simp only [if_neg hc]
        exact ih processed

/-- C3 — amended. Neither search function deduplicates by technique id. The
ChromaDB path `search_techniques` yields exactly one entry per backing row,
technique ids (duplicates included) preserved in response order. The
AWS-Titan path `search_mitre_techniques` also builds one entry per row —
its technique ids are a permutation of the rows' ids, duplicates included —
but sorts its output by descending relevance score before returning.
Deduplication by technique id exists only in the knowledge-base path
`BedrockService.retrieve_and_summarize`, whose matched techniques carry
pairwise distinct technique ids, keeping the first occurrence in retrieval
order among chunks at or above the `0.3` score threshold. -/
theorem C3_amended (rows : List ChromaRow) (extract_info : String → TechniqueInfo)
    (chunks : List KBChunk) :
    (search_techniques rows).map (·.technique_id) = rows.map (·.technique_id) ∧
    ((search_mitre_techniques rows).map (·.technique_id)).Perm
      (rows.map (·.technique_id)) ∧
    (search_mitre_techniques rows).length = rows.length ∧
    (search_mitre_techniques rows).Pairwise
      (fun a b => b.relevance_score ≤ a.relevance_score) ∧
    ((retrieve_loop extract_info chunks []).map (·.technique_id)).Nodup := by
  refine ⟨?_, ?_, ?_, ?_, (retrieve_loop_ids_nodup_aux extract_info chunks []).1⟩
  · unfold search_techniques
    rw [List.map_map]
    rfl
  · have hp := (List.mergeSort_perm (rows.map titan_row_to_technique)
      (fun a b => decide (b.relevance_score ≤ a.relevance_score))).map
        (fun t : TitanTechnique => t.technique_id)
    have he : (rows.map titan_row_to_technique).map
        (fun t : TitanTechnique => t.technique_id) = rows.map (·.technique_id) := by
      rw [List.map_map]
      rfl
    unfold search_mitre_techniques
    rw [← he]
    exact hp
  · unfold search_mitre_techniques
    rw [List.length_mergeSort, List.length_map]
  · have hs : ((rows.map titan_row_to_technique).mergeSort
        (fun a b => decide (b.relevance_score ≤ a.relevance_score))).Pairwise
        (fun a b => decide (b.relevance_score ≤ a.relevance_score) = true) :=
      List.sorted_mergeSort
        (fun a b c hab hbc => by
          rw [decide_eq_true_iff] at hab hbc ⊢
          exact le_trans hbc hab)
        (fun a b => by
          rw [Bool.or_eq_true, decide_eq_true_iff, decide_eq_true_iff]
          exact le_total b.relevance_score a.relevance_score)
        (rows.map titan_row_to_technique)
    unfold search_mitre_techniques
    exact hs.imp (fun h => by rwa [decide_eq_true_iff] at h)

/-- C3 — witness for the amended theorem: the duplicate-id rows above, and a
three-chunk knowledge-base response whose first two chunks extract to the
same technique id. -/
theorem C3_amended_witness :
    (search_techniques dup_rows).map (·.technique_id) = dup_rows.map (·.technique_id) ∧
    ((search_mitre_techniques dup_rows).map (·.technique_id)).Perm
      (dup_rows.map (·.technique_id)) ∧
    (search_mitre_techniques dup_rows).length = dup_rows.length ∧
    (search_mitre_techniques dup_rows).Pairwise
      (fun a b => b.relevance_score ≤ a.relevance_score) ∧
    ((retrieve_loop
        (fun c => ⟨if c = "chunkB" then "T1059" else if c = "chunkC" then "T1003" else "T1059",
                   "", "", [], []⟩)
        [⟨"chunkA", 9/10⟩, ⟨"chunkB", 1/2⟩, ⟨"chunkC", 2/5⟩] []).map
      (·.technique_id)).Nodup :=
  C3_amended dup_rows _ _

/-! ## IOC extraction

`extract_iocs` (ioc_extractor.py, lines 12-21) walks the `IOC_PATTERNS`
dict in its fixed insertion order, collects `re.findall` matches for each
pattern class, and records a value only when it was not seen before
(`seen_iocs`). The regex engine is the external `re` collaborator: it is
modelled as an abstract `findall` function from pattern class and log text
to the list of matched substrings, which is all the extraction logic
consumes. -/

def IOC_PATTERNS : List String := ["ipv4", "domain", "url", "md5", "sha256"]

structure IOCEntry where
  type : String
  value : String
deriving DecidableEq

/-- Inner loop of `extract_iocs` over one pattern class's matches: appends
each unseen match with the class as its type and marks it seen. Returns the
appended entries and the updated seen set. -/
def add_matches (t : String) : List String → List String → List IOCEntry × List String
  | [], seen => ([], seen)
  | m :: ms, seen =>
    if m ∈ seen then add_matches t ms seen
    else
      let p := add_matches t ms (m :: seen)
      (⟨t, m⟩ :: p.1, p.2)

/-- Outer loop of `extract_iocs` over the pattern classes in order, threading
the shared seen set. -/
def extract_across (fa : String → List String) : List String → List String → List IOCEntry
  | [], _ => []
  | t :: ts, seen =>
    let p := add_matches t (fa t) seen
    p.1 ++ extract_across fa ts p.2

def extract_iocs (findall : String → String → List String) (log : String) : List IOCEntry :=
  extract_across (fun t => findall t log) IOC_PATTERNS []

theorem add_matches_seen_subset (t : String) (ms : List String) :
    ∀ seen x, (x ∈ seen ∨ x ∈ ms) → x ∈ (add_matches t ms seen).2 := by
  induction ms with
  | nil => intro seen x h; unfold add_matches; simpa using h
  | cons m ms ih =>
    intro seen x h
    unfold add_matches
    by_cases hm : m ∈ seen
    · simp only [if_pos hm]
      refine ih seen x ?_
      rcases h with h | h
      · exact Or.inl h
      · rw [List.mem_cons] at h
        rcases h with rfl | h
        · exact Or.inl hm
        · exact Or.inr h
    · simp only [if_neg hm]
      refine ih (m :: seen) x ?_
      rcases h with h | h
      · exact Or.inl (List.mem_cons_of_mem _ h)
      · rw [List.mem_cons] at h
        rcases h with rfl | h
        · exact Or.inl (List.mem_cons_self _ _)
        · exact Or.inr h

theorem add_matches_entries (t : String) (ms : List String) :
    ∀ seen,
      (∀ e ∈ (add_matches t ms seen).1,
        e.type = t ∧ e.value ∈ ms ∧ e.value ∉ seen ∧ e.value ∈ (add_matches t ms seen).2) ∧
      (((add_matches t ms seen).1.map (·.value)).Nodup) := by
  induction ms with
  | nil => intro seen; unfold add_matches; simp
  | cons m ms ih =>
    intro seen
    unfold add_matches
    by_cases hm : m ∈ seen
    · simp only [if_pos hm]
      obtain ⟨ihe, ihn⟩ := ih seen
      refine ⟨?_, ihn⟩
      intro e he
      obtain ⟨h1, h2, h3, h4⟩ := ihe e he
      exact ⟨h1, List.mem_cons_of_mem _ h2, h3, h4⟩
    · simp only [if_neg hm]
      obtain ⟨ihe, ihn⟩ := ih (m :: seen)
      constructor
      · intro e he
        rw [List.mem_cons] at he
        rcases he with rfl | he
        · refine ⟨rfl, List.mem_cons_self _ _, hm, ?_⟩
          exact add_matches_seen_subset t ms (m :: seen) m (Or.inl (List.mem_cons_self _ _))
        · obtain ⟨h1, h2, h3, h4⟩ := ihe e he
          refine ⟨h1, List.mem_cons_of_mem _ h2, ?_, h4⟩
          intro hc
          exact h3 (List.mem_cons_of_mem _ hc)
      · rw [List.map_cons, List.nodup_cons]
        refine ⟨?_, ihn⟩
        intro hc
        rw [List.mem_map] at hc
        obtain ⟨e, he, hv⟩ := hc
        have h3 := (ihe e he).2.2.1
        exact h3 (by rw [hv]; exact List.mem_cons_self _ _)

theorem extract_across_nodup (fa : String → List String) (ts : List String) :
    ∀ seen,
      ((extract_across fa ts seen).map (·.value)).Nodup ∧
      ∀ e ∈ extract_across fa ts seen, e.value ∉ seen := by
  induction ts with
  | nil => intro seen; unfold extract_across; simp
  | cons t ts ih =>
    intro seen
    unfold extract_across
    obtain ⟨ihn, ihs⟩ := ih (add_matches t (fa t) seen).2
    obtain ⟨ame, amn⟩ := add_matches_entries t (fa t) seen
    constructor
    · rw [List.map_append, List.nodup_append]
      refine ⟨amn, ihn, ?_⟩
      intro v hv1 hv2
      rw [List.mem_map] at hv1 hv2
      obtain ⟨e1, he1, rfl⟩ := hv1
      obtain ⟨e2, he2, hv⟩ := hv2
      have h4 := (ame e1 he1).2.2.2
      have h5 := ihs e2 he2
      rw [hv] at h5
      exact h5 h4
    · intro e he
      rw [List.mem_append] at he
      rcases he with he | he
      · exact (ame e he).2.2.1
      · intro hc
        exact ihs e he (add_matches_seen_subset t (fa t) seen e.value (Or.inl hc))

theorem extract_across_first_owner (fa : String → List String) (ts : List String) :
    ∀ seen e, e ∈ extract_across fa ts seen →
      ∃ pre post, ts = pre ++ e.type :: post ∧ e.value ∈ fa e.type ∧
        (∀ t' ∈ pre, e.value ∉ fa t') ∧ e.value ∉ seen := by
  induction ts with
  | nil => intro seen e he; unfold extract_across at he; exact absurd he (List.not_mem_nil e)
  | cons t ts ih =>
    intro seen e he
    unfold extract_across at he
    rw [List.mem_append] at he
    obtain ⟨ame, _⟩ := add_matches_entries t (fa t) seen
    rcases he with he | he
    · obtain ⟨h1, h2, h3, _⟩ := ame e he
      refine ⟨[], ts, ?_, ?_, ?_, h3⟩
      · rw [h1]; rfl
      · rw [h1]; exact h2
      · intro t' ht'; exact absurd ht' (List.not_mem_nil t')
    · obtain ⟨pre, post, hts, hmem, hpre, hseen⟩ := ih (add_matches t (fa t) seen).2 e he
      refine ⟨t :: pre, post, ?_, hmem, ?_, ?_⟩
      · rw [hts]; rfl
      · intro t' ht'
        rw [List.mem_cons] at ht'
        rcases ht' with rfl | ht'
        · intro hc
          exact hseen (add_matches_seen_subset t' (fa t') seen e.value (Or.inr hc))
        · exact hpre t' ht'
      · intro hc
        exact hseen (add_matches_seen_subset t (fa t) seen e.value (Or.inl hc))

theorem find_first_of_split (p : String → Bool) (pre : List String) (x : String)
    (post : List String) (hpre : ∀ t' ∈ pre, p t' = false) (hx : p x = true) :
    List.find? p (pre ++ x :: post) = some x := by
  induction pre with
  | nil => simpa using List.find?_cons_of_pos post hx
  | cons a pre ih =>
    have ha : ¬ p a := by
      rw [hpre a (List.mem_cons_self _ _)]; exact Bool.false_ne_true
    rw [List.cons_append, List.find?_cons_of_neg _ ha]
    exact ih (fun t' ht' => hpre t' (List.mem_cons_of_mem _ ht'))

/-- C4 — IOC uniqueness and first-class ownership. For every regex oracle
and every input text, `extract_iocs` reports each literal value at most once
(its values are pairwise distinct, so text containing the same IP address
twice yields exactly one entry for that value), and each reported entry's
type is the first pattern class, in the fixed order ipv4, domain, url, md5,
sha256, whose matches contain that value. -/
theorem C4_ioc_uniqueness (findall : String → String → List String) (log : String) :
    ((extract_iocs findall log).map (·.value)).Nodup ∧
    ∀ e ∈ extract_iocs findall log,
      IOC_PATTERNS.find? (fun t => decide (e.value ∈ findall t log)) = some e.type := by
  constructor
  · exact (extract_across_nodup (fun t => findall t log) IOC_PATTERNS []).1
  · intro e he
    obtain ⟨pre, post, hts, hmem, hpre, _⟩ :=
      extract_across_first_owner (fun t => findall t log) IOC_PATTERNS [] e he
    rw [hts]
    refine find_first_of_split _ pre e.type post ?_ (by simpa using hmem)
    intro t' ht'
    simpa using hpre t' ht'

/-- Regex oracle for the C4 witness: the text contains the IP `10.0.0.5`
twice, and the same literal also appears in the md5 class's match list. -/
def c4_findall (t : String) (_ : String) : List String :=
  if t = "ipv4" then ["10.0.0.5", "10.0.0.5"]
  else if t = "md5" then ["10.0.0.5", "d41d8cd98f00b204e9800998ecf8427e"]
  else []

/-- C4 — witness: on the concrete oracle the extracted values are pairwise
distinct and the duplicated IP is owned by the ipv4 class. -/
theorem C4_ioc_uniqueness_witness :
    ((extract_iocs c4_findall "x 10.0.0.5 y 10.0.0.5").map (·.value)).Nodup ∧
    IOC_PATTERNS.find?
      (fun t => decide ((IOCEntry.mk "ipv4" "10.0.0.5").value ∈ c4_findall t "x 10.0.0.5 y 10.0.0.5"))
      = some (IOCEntry.mk "ipv4" "10.0.0.5").type :=
  ⟨(C4_ioc_uniqueness c4_findall "x 10.0.0.5 y 10.0.0.5").1,
   (C4_ioc_uniqueness c4_findall "x 10.0.0.5 y 10.0.0.5").2 ⟨"ipv4", "10.0.0.5"⟩ (by decide)⟩

/-! ## Gemini collaborator calls and the analyze pipeline

Outcome of one `model.generate_content` call (gemini_service.py): either it
returned and `text` is the response text (the empty string standing for a
falsy response object or falsy `response.text`), or it raised an exception
whose message is `msg`. -/

inductive GenOutcome where
  | response (text : String)
  | exc (msg : String)

def MAX_LOG_LENGTH : Nat := 10000

/-- Input truncation in `GeminiService.summarize_logs`
(gemini_service.py, lines 28-30):
`if len(logs) > Config.MAX_LOG_LENGTH: logs = logs[:Config.MAX_LOG_LENGTH] + "... (truncated)"`. -/
def truncate_logs (logs : String) : String :=
  if logs.length > MAX_LOG_LENGTH then logs.take MAX_LOG_LENGTH ++ "... (truncated)"
  else logs

/-- Python's `str.startswith`, as a prefix test on the character sequence. -/
def py_startswith (s pre : String) : Bool :=
  pre.data.isPrefixOf s.data

/-- Python's `str.strip()`: drop leading and trailing whitespace. -/
def py_strip (s : String) : String :=
  ⟨((s.data.dropWhile Char.isWhitespace).reverse.dropWhile Char.isWhitespace).reverse⟩

theorem py_startswith_append (pre t : String) : py_startswith (pre ++ t) pre = true := by
  unfold py_startswith
  cases pre with
  | mk l =>
    cases t with
    | mk m =>
      show List.isPrefixOf l (l ++ m) = true
      rw [List.isPrefixOf_iff_prefix]
      exact List.prefix_append l m

/-- `GeminiService.summarize_logs` (gemini_service.py, lines 16-61), as a
function of the external model. The fixed instruction prompt wraps the
(truncated) log text, so the call is modelled as the model applied to the
truncated logs. A non-empty response text is returned stripped; an empty
response yields the fixed sentinel; an exception yields the
`Error generating summary:` marker with the exception message. -/
def summarize_logs (model : String → GenOutcome) (logs : String) : String :=
  match model (truncate_logs logs) with
  | .response t =>
      if t ≠ "" then py_strip t
      else "Unable to generate summary - empty response from AI service"
  | .exc e => "Error generating summary: " ++ e

/-- `GeminiService.enhance_threat_analysis` (gemini_service.py, lines 99-110),
as a function of its model call's outcome. -/
def enhance_threat_analysis (outcome : GenOutcome) : String :=
  match outcome with
  | .response t =>
      if t ≠ "" then py_strip t
      else "Unable to enhance analysis - empty response from AI service"
  | .exc e => "Error enhancing analysis: " ++ e

/-- Report shape assembled by the `/analyze` route (logs_model.py,
`LogAnalysisResponse`; the wall-clock fields `analysis_timestamp` and
`processing_time_ms` are real-time measurements and are not modelled). -/
structure LogAnalysisResponse where
  summary : String
  matched_techniques : List AttackTechnique
  enhanced_analysis : Option String
deriving DecidableEq

/-- Outcome of one `/analyze` request: an HTTP error or a report. -/
inductive AnalyzeResult where
  | httpError (status : Nat) (detail : String)
  | success (resp : LogAnalysisResponse)
deriving DecidableEq

/-- The `/analyze` pipeline `analyze_logs` (analysis.py, lines 41-122) as a
function of the summarizer model, the backing index's rows for the summary
query, the enhancement call's outcome, the raw logs and the caller's
`enhance_with_ai` flag: summarize, fail with HTTP 500 when the summary is
falsy or starts with `Error generating summary:`, otherwise search
techniques, optionally enhance, and assemble the report. -/
def analyze_logs (summarizer : String → GenOutcome) (index_rows : List ChromaRow)
    (enhance_outcome : GenOutcome) (logs : String) (enhance_with_ai : Bool) :
    AnalyzeResult :=
  let summary := summarize_logs summarizer logs
  if summary = "" then
    .httpError 500 "Failed to generate log summary: empty response"
  else if py_startswith summary "Error generating summary:" then
    .httpError 500 ("Failed to generate log summary: " ++ summary)
  else
    let techniques_data := search_techniques index_rows
    let matched := techniques_data.map to_attack_technique
    let enhanced : Option String :=
      if enhance_with_ai ∧ matched ≠ [] then some (enhance_threat_analysis enhance_outcome)
      else none
    .success { summary := summary, matched_techniques := matched,
               enhanced_analysis := enhanced }

/-- C5 — counterexample. The claim says the pipeline fails hard whenever the
summarizer returns empty text or an explicit error-marker string. But the
summarizer's own empty-response marker
`Unable to generate summary - empty response from AI service` is not
detected by the route, which builds and returns a normal report anchored on
that marker text. -/
theorem C5_counterexample :
    analyze_logs (fun _ => GenOutcome.response "") [] (GenOutcome.response "x") "log" false
      = AnalyzeResult.success
        { summary := "Unable to generate summary - empty response from AI service"
          matched_techniques := []
          enhanced_analysis := none } := by
  decide

/-- C5 — amended. The pipeline fails hard — an HTTP 500 error, never a
report — exactly when the summarizer's returned text is empty or starts
with `Error generating summary:` (in particular whenever the summarizer
call raised an exception); every report it does return carries a summary
that is neither empty nor marked with that prefix. The summarizer's other
sentinel, `Unable to generate summary - ...`, is not treated as a failure. -/
theorem C5_amended (summarizer : String → GenOutcome) (rows : List ChromaRow)
    (eo : GenOutcome) (logs : String) (flag : Bool) :
    (summarize_logs summarizer logs = "" ∨
       py_startswith (summarize_logs summarizer logs) "Error generating summary:" = true →
      ∃ d, analyze_logs summarizer rows eo logs flag = .httpError 500 d) ∧
    (∀ e, summarizer (truncate_logs logs) = .exc e →
      ∃ d, analyze_logs summarizer rows eo logs flag = .httpError 500 d) ∧
    (∀ resp, analyze_logs summarizer rows eo logs flag = .success resp →
      resp.summary = summarize_logs summarizer logs ∧ resp.summary ≠ "" ∧
      py_startswith resp.summary "Error generating summary:" = false) := by
  refine ⟨?_, ?_, ?_⟩
  · intro h
    unfold analyze_logs
    rcases h with h | h
    · rw [if_pos h]
      exact ⟨_, rfl⟩
    · by_cases h0 : summarize_logs summarizer logs = ""
      · rw [if_pos h0]; exact ⟨_, rfl⟩
      · rw [if_neg h0, if_pos h]; exact ⟨_, rfl⟩
  · intro e he
    unfold analyze_logs
    have hs : summarize_logs summarizer logs = "Error generating summary: " ++ e := by
      unfold summarize_logs
      rw [he]
    by_cases h0 : summarize_logs summarizer logs = ""
    · rw [if_pos h0]; exact ⟨_, rfl⟩
    · rw [if_neg h0, if_pos (by rw [hs]; exact py_startswith_append _ _)]
      exact ⟨_, rfl⟩
  · intro resp h
    unfold analyze_logs at h
    by_cases h0 : summarize_logs summarizer logs = ""
    · rw [if_pos h0] at h; exact absurd h (by simp)
    · rw [if_neg h0] at h
      by_cases h1 : py_startswith (summarize_logs summarizer logs) "Error generating summary:" = true
      · rw [if_pos h1] at h; exact absurd h (by simp)
      · rw [if_neg h1] at h
        simp only [AnalyzeResult.success.injEq] at h
        refine ⟨?_, ?_, ?_⟩
        · rw [← h]
        · rw [← h]; exact h0
        · rw [← h]; simpa using h1

/-- C5 — witness for the amended theorem: a raising summarizer yields an
HTTP 500 error, and a well-behaved summarizer yields a report whose summary
is unmarked and non-empty. -/
theorem C5_amended_witness :
    (∃ d, analyze_logs (fun _ => GenOutcome.exc "boom") [] (GenOutcome.response "x")
        "log" false = AnalyzeResult.httpError 500 d) ∧
    ((LogAnalysisResponse.mk "ok" [] none).summary
        = summarize_logs (fun _ => GenOutcome.response "ok") "log" ∧
     (LogAnalysisResponse.mk "ok" [] none).summary ≠ "" ∧
     py_startswith (LogAnalysisResponse.mk "ok" [] none).summary
        "Error generating summary:" = false) :=
  ⟨(C5_amended (fun _ => GenOutcome.exc "boom") [] (GenOutcome.response "x")
      "log" false).2.1 "boom" rfl,
   (C5_amended (fun _ => GenOutcome.response "ok") [] (GenOutcome.response "x")
      "log" false).2.2 (LogAnalysisResponse.mk "ok" [] none) (by decide)⟩

/-- One-row backing response used for the enhancement scenarios (its
distance is absent, so its relevance score is the definitional `0`). -/
def c6_rows : List ChromaRow :=
  [⟨"T1059", "Command and Scripting Interpreter", "desc", "execution", "Windows",
    "doc", none⟩]

/-- C6 — counterexample. The claim says that when the external enhancement
call fails the report's `enhancedAnalysis` field is null. In fact
`enhance_threat_analysis` absorbs the exception by returning the string
`Error enhancing analysis: <msg>`, and the route stores that string in the
report: the field is non-null on failure. -/
theorem C6_counterexample :
    analyze_logs (fun _ => GenOutcome.response "Suspicious PowerShell execution")
      c6_rows (GenOutcome.exc "boom") "raw logs" true
      = AnalyzeResult.success
        { summary := "Suspicious PowerShell execution"
          matched_techniques := [⟨"T1059", "Command and Scripting Interpreter", "desc",
            ["execution"], ["Windows"], 0⟩]
          enhanced_analysis := some "Error enhancing analysis: boom" } ∧
    some "Error enhancing analysis: boom" ≠ (none : Option String) := by
  exact ⟨by decide, by decide⟩

/-- C6 — amended. The enhancement step runs if and only if the caller's
`enhance_with_ai` flag is set and at least one technique was matched, and a
failing enhancement call is absorbed: the pipeline still returns a report,
but its `enhanced_analysis` field then holds the non-null error-marker
string `Error enhancing analysis: <msg>` rather than null. -/
theorem C6_amended (summarizer : String → GenOutcome) (rows : List ChromaRow)
    (eo : GenOutcome) (logs : String) (flag : Bool) (resp : LogAnalysisResponse)
    (h : analyze_logs summarizer rows eo logs flag = .success resp) :
    (resp.enhanced_analysis ≠ none ↔ flag = true ∧ resp.matched_techniques ≠ []) ∧
    ∀ e, eo = .exc e → flag = true → resp.matched_techniques ≠ [] →
      resp.enhanced_analysis = some ("Error enhancing analysis: " ++ e) := by
  unfold analyze_logs at h
  by_cases h0 : summarize_logs summarizer logs = ""
  · rw [if_pos h0] at h; exact absurd h (by simp)
  · rw [if_neg h0] at h
    by_cases h1 : py_startswith (summarize_logs summarizer logs) "Error generating summary:" = true
    · rw [if_pos h1] at h; exact absurd h (by simp)
    · rw [if_neg h1] at h
      simp only [AnalyzeResult.success.injEq] at h
      subst h
      by_cases h2 : flag = true ∧ (search_techniques rows).map to_attack_technique ≠ []
      · simp only [if_pos h2]
        refine ⟨⟨fun _ => h2, fun _ => by simp⟩, ?_⟩
        intro e he _ _
        rw [he]
        rfl
      · simp only [if_neg h2]
        refine ⟨⟨fun hc => absurd rfl hc, fun hc => absurd hc h2⟩, ?_⟩
        intro e _ hf hm
        exact absurd ⟨hf, hm⟩ h2

/-- C6 — witness for the amended theorem, at the concrete failing-enhancement
run of the counterexample scenario. -/
theorem C6_amended_witness :
    ((LogAnalysisResponse.mk "Suspicious PowerShell execution"
        [⟨"T1059", "Command and Scripting Interpreter", "desc",
          ["execution"], ["Windows"], 0⟩]
        (some "Error enhancing analysis: boom")).enhanced_analysis ≠ none ↔
      true = true ∧
      (LogAnalysisResponse.mk "Suspicious PowerShell execution"
        [⟨"T1059", "Command and Scripting Interpreter", "desc",
          ["execution"], ["Windows"], 0⟩]
        (some "Error enhancing analysis: boom")).matched_techniques ≠ []) ∧
    ∀ e, GenOutcome.exc "boom" = GenOutcome.exc e → true = true →
      (LogAnalysisResponse.mk "Suspicious PowerShell execution"
        [⟨"T1059", "Command and Scripting Interpreter", "desc",
          ["execution"], ["Windows"], 0⟩]
        (some "Error enhancing analysis: boom")).matched_techniques ≠ [] →
      (LogAnalysisResponse.mk "Suspicious PowerShell execution"
        [⟨"T1059", "Command and Scripting Interpreter", "desc",
          ["execution"], ["Windows"], 0⟩]
        (some "Error enhancing analysis: boom")).enhanced_analysis
        = some ("Error enhancing analysis: " ++ e) :=
  C6_amended (fun _ => GenOutcome.response "Suspicious PowerShell execution")
    c6_rows (GenOutcome.exc "boom") "raw logs" true _ (by decide)

theorem string_append_ne_empty_left (s t : String) (h : s ≠ "") : s ++ t ≠ "" := by
  cases s with
  | mk l =>
    cases t with
    | mk m =>
      intro hc
      apply h
      have hd : l ++ m = [] := congrArg String.data hc
      rw [List.append_eq_nil] at hd
      show String.mk l = ""
      rw [hd.1]

/-- C10 — counterexample. The claim says failure is signalled only through
the string sentinels, never through an empty return. But a whitespace-only
model response is truthy, so it is returned stripped — which is the empty
string. -/
theorem C10_counterexample :
    summarize_logs (fun _ => GenOutcome.response " ") "x" = "" := by
  decide

/-- C10 — amended. `summarize_logs` is a total function of its input and the
model call's outcome (every exception is absorbed): input longer than
`MAX_LOG_LENGTH` is truncated before the external call and shorter input is
passed unchanged (the result depends on the model only through its value on
the truncated input); an empty model response yields the fixed non-empty
sentinel starting with `Unable to generate summary`; an exception yields
the non-empty marker `Error generating summary: <msg>`; a non-empty model
response is returned stripped of surrounding whitespace — so a
whitespace-only response makes the function return the empty string. -/
theorem C10_amended :
    (∀ (model : String → GenOutcome) (logs e : String),
      model (truncate_logs logs) = .exc e →
      summarize_logs model logs = "Error generating summary: " ++ e ∧
      py_startswith (summarize_logs model logs) "Error generating summary:" = true ∧
      summarize_logs model logs ≠ "") ∧
    (∀ (model : String → GenOutcome) (logs : String),
      model (truncate_logs logs) = .response "" →
      summarize_logs model logs
        = "Unable to generate summary - empty response from AI service" ∧
      py_startswith (summarize_logs model logs) "Unable to generate summary" = true ∧
      summarize_logs model logs ≠ "") ∧
    (∀ (model : String → GenOutcome) (logs t : String),
      model (truncate_logs logs) = .response t → t ≠ "" →
      summarize_logs model logs = py_strip t) ∧
    (∀ logs : String, logs.length > MAX_LOG_LENGTH →
      truncate_logs logs = logs.take MAX_LOG_LENGTH ++ "... (truncated)") ∧
    (∀ logs : String, logs.length ≤ MAX_LOG_LENGTH → truncate_logs logs = logs) ∧
    (∀ (model model' : String → GenOutcome) (logs : String),
      model (truncate_logs logs) = model' (truncate_logs logs) →
      summarize_logs model logs = summarize_logs model' logs) := by
  refine ⟨?_, ?_, ?_, ?_, ?_, ?_⟩
  · intro model logs e he
    have hs : summarize_logs model logs = "Error generating summary: " ++ e := by
      unfold summarize_logs
      rw [he]
    refine ⟨hs, ?_, ?_⟩
    · rw [hs]; exact py_startswith_append _ _
    · rw [hs]; exact string_append_ne_empty_left _ _ (by decide)
  · intro model logs he
    have hs : summarize_logs model logs
        = "Unable to generate summary - empty response from AI service" := by
      unfold summarize_logs
      rw [he]
      rfl
    exact ⟨hs, by rw [hs]; decide, by rw [hs]; decide⟩
  · intro model logs t ht hne
    unfold summarize_logs
    rw [ht]
    exact if_pos hne
  · intro logs h
    unfold truncate_logs
    rw [if_pos h]
  · intro logs h
    unfold truncate_logs
    rw [if_neg (by omega)]
  · intro model model' logs h
    unfold summarize_logs
    rw [h]

/-- C10 — witness for the amended theorem: a model that raises `boom` on the
(short, hence untruncated) input. -/
theorem C10_amended_witness :
    summarize_logs (fun _ => GenOutcome.exc "boom") "short log"
      = "Error generating summary: " ++ "boom" ∧
    py_startswith (summarize_logs (fun _ => GenOutcome.exc "boom") "short log")
      "Error generating summary:" = true ∧
    summarize_logs (fun _ => GenOutcome.exc "boom") "short log" ≠ "" :=
  C10_amended.1 (fun _ => GenOutcome.exc "boom") "short log" "boom" rfl

/-! ## RAG query confidence -/

/-- Confidence computation of the RAG query endpoint `rag_mitre_query`
(mitre.py, lines 437-442): the average of the retrieved techniques'
`relevance_score`s, boosted by `1.2` (the rational `6/5`) and capped at
`1.0`; `0.0` when no techniques were retrieved. The response additionally
rounds the score to three decimals for display, a presentation step outside
this definition. -/
def rag_confidence_score (relevant_techniques : List TechniqueDict) : ℚ :=
  if relevant_techniques ≠ [] then
    let avg_relevance :=
      ((relevant_techniques.map (·.relevance_score)).sum) / relevant_techniques.length
    min (avg_relevance * (6/5)) 1
  else 0

/-- Restatement of the spec's confidence rule, named for refinement: an
average of the relevance scores scaled by `1.2` and clamped to `1.0`, zero
when there are no scores. -/
def confidence_spec (scores : List ℚ) : ℚ :=
  if scores = [] then 0 else min (scores.sum / scores.length * (6/5)) 1

theorem retrieve_loop_score_ge (extract_info : String → TechniqueInfo)
    (chunks : List KBChunk) :
    ∀ processed, ∀ t ∈ retrieve_loop extract_info chunks processed,
      3/10 ≤ t.relevance_score := by
  induction chunks with
  | nil => intro processed t ht; unfold retrieve_loop at ht; exact absurd ht (List.not_mem_nil t)
  | cons c rest ih =>
    intro processed t ht
    unfold retrieve_loop at ht
    by_cases hs : c.score < 3/10
    · rw [if_pos hs] at ht
      exact ih processed t ht
    · rw [if_neg hs] at ht
      by_cases hc : (extract_info c.content).id ≠ "Unknown" ∧
          (extract_info c.content).id ∉ processed
      · rw [if_pos hc] at ht
        rw [List.mem_cons] at ht
        rcases ht with rfl | ht
        · exact le_of_not_lt hs
        · exact ih _ t ht
      · rw [if_neg hc] at ht
        exact ih processed t ht

/-- C7 — confidence formula and score threshold. The RAG query's derived
confidence score coincides with the spec's rule (average of the retrieved
relevance scores times `1.2`, clamped to at most `1.0`), equals `0` when no
techniques were retrieved, and in the knowledge-base retrieval path every
matched technique and every context chunk that survives filtering has
relevance at least `0.3`. -/
theorem C7_confidence (techs : List TechniqueDict)
    (extract_info : String → TechniqueInfo) (chunks : List KBChunk) :
    rag_confidence_score techs = confidence_spec (techs.map (·.relevance_score)) ∧
    rag_confidence_score [] = 0 ∧
    (∀ t ∈ retrieve_loop extract_info chunks [], 3/10 ≤ t.relevance_score) ∧
    (∀ s ∈ retrieve_contexts chunks,
      ∃ c ∈ chunks, c.content = s ∧ 3/10 ≤ c.score) := by
  refine ⟨?_, by simp [rag_confidence_score], retrieve_loop_score_ge extract_info chunks [], ?_⟩
  · by_cases h : techs = []
    · subst h
      simp [rag_confidence_score, confidence_spec]
    · rw [rag_confidence_score, confidence_spec, if_pos h,
        if_neg (by simpa [List.map_eq_nil_iff] using h), List.length_map]
  · intro s hs
    unfold retrieve_contexts at hs
    rw [List.mem_map] at hs
    obtain ⟨c, hc, rfl⟩ := hs
    rw [List.mem_filter] at hc
    refine ⟨c, hc.1, rfl, ?_⟩
    have h2 := hc.2
    rw [decide_eq_true_iff] at h2
    exact le_of_not_lt h2

/-- Two retrieved techniques used to instantiate the confidence formula. -/
def c7_techs : List TechniqueDict :=
  [⟨"T1059", "a", "", [], [], 1/2, "d1"⟩, ⟨"T1003", "b", "", [], [], 9/10, "d2"⟩]

/-- Single high-scoring chunk whose extraction yields `T1059`. -/
def c7_chunks : List KBChunk := [⟨"chunk", 1⟩]

def c7_extract : String → TechniqueInfo := fun _ => ⟨"T1059", "n", "", [], []⟩

/-- C7 — witness: the formula agreement at a concrete two-element retrieval,
and the threshold bound at the concrete knowledge-base technique. -/
theorem C7_confidence_witness :
    rag_confidence_score c7_techs = confidence_spec (c7_techs.map (·.relevance_score)) ∧
    (3:ℚ)/10 ≤ (KBTechnique.mk "T1059" "n" "" [] [] 1).relevance_score :=
  ⟨(C7_confidence c7_techs c7_extract c7_chunks).1,
   (C7_confidence c7_techs c7_extract c7_chunks).2.2.1 _ (by
      unfold retrieve_loop c7_chunks c7_extract
      norm_num
      rw [if_neg (by decide)]
      exact List.mem_cons_self _ _)⟩

/-! ## The monitoring loop

`ForensIQCLI.monitor_logs` (cli_tool.py, lines 1287-1368), modelled as a
step function on the loop's error-handling state. One iteration's
observable branch is a `CycleEvent`; the step returns the successor state
and the sleep duration taken before the next iteration (`none` when the
loop ends — `break` in the source). The file-offset bookkeeping
(`last_position`) is orthogonal to the error counter and the sleeps and is
carried implicitly by the events. -/

inductive CycleEvent where
  | fileGone
  | analysisSuccess (next_interval : ℚ)
  | analysisFailed
  | noNewContent
  | truncatedFile
  | exc

structure MonitorState where
  consecutive_errors : Nat
  stopped : Bool
deriving DecidableEq

/-- The loop's `max_errors = 5` (cli_tool.py, line 1286). -/
def max_errors : Nat := 5

/-- The backoff cap: literal `300` seconds in
`wait_time = min(base_interval * (2 ** (consecutive_errors - 1)), 300)`
(cli_tool.py, line 1366). -/
def MAX_BACKOFF : ℚ := 300

def monitor_step (base_interval : ℚ) (st : MonitorState) (ev : CycleEvent) :
    MonitorState × Option ℚ :=
  if st.stopped then (st, none)
  else
    match ev with
    | .fileGone => ({ st with stopped := true }, none)
    | .analysisSuccess next_interval =>
        ({ st with consecutive_errors := 0 }, some next_interval)
    | .analysisFailed =>
        ({ st with consecutive_errors := st.consecutive_errors + 1 }, some base_interval)
    | .noNewContent => (st, some (min base_interval 60))
    | .truncatedFile => (st, some 5)
    | .exc =>
        let n := st.consecutive_errors + 1
        if n ≥ max_errors then ({ consecutive_errors := n, stopped := true }, none)
        else ({ st with consecutive_errors := n },
          some (min (base_interval * 2 ^ (n - 1)) MAX_BACKOFF))

/-- Final state after a sequence of cycle events. -/
def monitor_run (base_interval : ℚ) (st : MonitorState) (evs : List CycleEvent) :
    MonitorState :=
  evs.foldl (fun s e => (monitor_step base_interval s e).1) st

/-- Sleep durations observed along a sequence of cycle events. -/
def monitor_trace (base_interval : ℚ) : MonitorState → List CycleEvent → List (Option ℚ)
  | _, [] => []
  | st, e :: evs =>
    (monitor_step base_interval st e).2 ::
      monitor_trace base_interval (monitor_step base_interval st e).1 evs

/-- C8 — counterexample. The claim says that after `n` consecutive transient
errors the sleep is `min(base * 2^(n-1), maxBackoff)` and that once the
consecutive-error count reaches `5` the loop stops permanently. The
failed-analysis branch (`result` falsy) contradicts both: it increments the
same consecutive-error counter but always sleeps `base_interval`, and after
five such errors in a row the counter is `5` yet the loop is not stopped
and still runs further cycles. -/
theorem C8_counterexample :
    (monitor_run 100 ⟨0, false⟩ (List.replicate 5 .analysisFailed)).consecutive_errors = 5 ∧
    (monitor_run 100 ⟨0, false⟩ (List.replicate 5 .analysisFailed)).stopped = false ∧
    (monitor_step 100 (monitor_run 100 ⟨0, false⟩ (List.replicate 5 .analysisFailed))
      .noNewContent).2 = some (min 100 60) ∧
    (monitor_step 100 ⟨1, false⟩ .analysisFailed).2 = some 100 ∧
    (100 : ℚ) ≠ min (100 * 2 ^ (2 - 1)) MAX_BACKOFF := by
  refine ⟨rfl, rfl, rfl, rfl, ?_⟩
  rw [MAX_BACKOFF]
  norm_num

/-- C8 — amended. For the exception branch the claim holds: the `n`-th
consecutive exception (while the loop is live and `n < 5`) sleeps
`min(base * 2^(n-1), 300)`, so three consecutive exceptions from a clean
state sleep `base*1, base*2, base*4` (when below the cap); the fifth
consecutive exception stops the loop permanently, and a stopped loop never
runs another cycle. A falsy analysis result, however, increments the same
counter but sleeps plain `base_interval` and never stops the loop by
itself. -/
theorem C8_amended (base : ℚ) (st : MonitorState) :
    (st.stopped = false → st.consecutive_errors + 1 < max_errors →
      monitor_step base st .exc
        = ({ st with consecutive_errors := st.consecutive_errors + 1 },
           some (min (base * 2 ^ st.consecutive_errors) 300))) ∧
    (st.stopped = false → st.consecutive_errors + 1 ≥ max_errors →
      monitor_step base st .exc = (⟨st.consecutive_errors + 1, true⟩, none)) ∧
    (st.stopped = true → ∀ ev, monitor_step base st ev = (st, none)) ∧
    (0 ≤ base → base * 4 ≤ 300 →
      monitor_trace base ⟨0, false⟩ [.exc, .exc, .exc]
        = [some base, some (base * 2), some (base * 4)]) ∧
    (st.stopped = false →
      monitor_step base st .analysisFailed
        = ({ st with consecutive_errors := st.consecutive_errors + 1 }, some base)) := by
  refine ⟨?_, ?_, ?_, ?_, ?_⟩
  · intro hl hn
    unfold monitor_step
    rw [if_neg (by rw [hl]; exact Bool.false_ne_true)]
    simp only
    rw [if_neg (by omega), MAX_BACKOFF]
    simp
  · intro hl hn
    unfold monitor_step
    rw [if_neg (by rw [hl]; exact Bool.false_ne_true)]
    simp only
    rw [if_pos hn]
  · intro hl ev
    unfold monitor_step
    rw [if_pos hl]
  · intro h0 h4
    have key : monitor_trace base ⟨0, false⟩ [.exc, .exc, .exc]
        = [some (min (base * 2 ^ (0:ℕ)) MAX_BACKOFF),
           some (min (base * 2 ^ (1:ℕ)) MAX_BACKOFF),
           some (min (base * 2 ^ (2:ℕ)) MAX_BACKOFF)] := rfl
    have b1 : base * 2 ^ (0:ℕ) = base := by norm_num
    have b2 : base * 2 ^ (1:ℕ) = base * 2 := by norm_num
    have b3 : base * 2 ^ (2:ℕ) = base * 4 := by norm_num
    rw [key, MAX_BACKOFF, b1, b2, b3, min_eq_left (by linarith),
      min_eq_left (by linarith), min_eq_left (by linarith)]
  · intro hl
    unfold monitor_step
    rw [if_neg (by rw [hl]; exact Bool.false_ne_true)]

/-- C8 — witness: the amended behaviour at `base = 20`, exercising the
three-exception backoff scenario and the stop at the fifth exception. -/
theorem C8_amended_witness :
    monitor_trace 20 ⟨0, false⟩ [.exc, .exc, .exc]
      = [some 20, some (20 * 2), some (20 * 4)] ∧
    monitor_step 20 ⟨4, false⟩ .exc = (⟨5, true⟩, none) :=
  ⟨(C8_amended 20 ⟨0, false⟩).2.2.2.1 (by norm_num) (by norm_num),
   (C8_amended 20 ⟨4, false⟩).2.1 rfl (by rw [max_errors])⟩

/-! ## Adaptive scheduler (spec-modelled) -/

inductive SeverityLevel where
  | low
  | medium
  | high
  | critical

/-- Modelled from the spec: the repository module `aiagent/ai_agent.py`
holding `AIAgent.adaptive_schedule_analysis` is imported by `cli_tool.py`
(`from ai_agent import AIAgent`; the scheduler is called at cli_tool.py
line 846 and exercised by test_cli.py line 96) but the module itself is
missing from the source tree. The spec's policy: critical maps to
`baseInterval / 4`, high to `baseInterval / 2`, medium to `baseInterval`,
low to `min(baseInterval * 1.5, maxInterval)`, and the result is always
clamped to `[minInterval, maxInterval]`. The policy reads none of the
current interval, so it is a pure function of the severity level and the
three bounds. -/
def adaptive_schedule_analysis (base_interval min_interval max_interval : ℚ)
    (severity_level : SeverityLevel) : ℚ :=
  let raw :=
    match severity_level with
    | .critical => base_interval / 4
    | .high => base_interval / 2
    | .medium => base_interval
    | .low => min (base_interval * (3/2)) max_interval
  max min_interval (min raw max_interval)

/-- C9 — counterexample. The claimed strict chain
`nextInterval(critical) < nextInterval(medium) < nextInterval(low)` fails
for degenerate-but-legal bounds: with `base = min = max = 100` the clamp
collapses all three levels to `100`. -/
theorem C9_counterexample :
    adaptive_schedule_analysis 100 100 100 .critical
      = adaptive_schedule_analysis 100 100 100 .medium ∧
    ¬ (adaptive_schedule_analysis 100 100 100 .critical
        < adaptive_schedule_analysis 100 100 100 .medium ∧
       adaptive_schedule_analysis 100 100 100 .medium
        < adaptive_schedule_analysis 100 100 100 .low) := by
  have hc : adaptive_schedule_analysis 100 100 100 .critical = 100 := by
    show max 100 (min (100 / 4) 100) = (100:ℚ)
    rw [min_eq_left (by norm_num), max_eq_left (by norm_num)]
  have hm : adaptive_schedule_analysis 100 100 100 .medium = 100 := by
    show max 100 (min 100 100) = (100:ℚ)
    rw [min_eq_left (by norm_num), max_eq_left (by norm_num)]
  refine ⟨by rw [hc, hm], ?_⟩
  rintro ⟨h1, _⟩
  rw [hc, hm] at h1
  exact lt_irrefl _ h1

/-- C9 — amended. The scheduler returns `base/4`, `base/2`, `base`, and
`min(base*1.5, max)` for critical/high/medium/low, clamped to `[min, max]`,
and depends only on the severity level and the bounds; the strict chain
`nextInterval(critical) < nextInterval(medium) < nextInterval(low)` holds
once the bounds are non-degenerate: `minInterval ≤ base/4`,
`base*1.5 ≤ maxInterval` and `0 < base`. -/
theorem C9_amended (base min_i max_i : ℚ) (h1 : min_i ≤ base / 4)
    (h2 : base * (3/2) ≤ max_i) (h3 : 0 < base) :
    adaptive_schedule_analysis base min_i max_i .critical
      < adaptive_schedule_analysis base min_i max_i .medium ∧
    adaptive_schedule_analysis base min_i max_i .medium
      < adaptive_schedule_analysis base min_i max_i .low ∧
    ∀ lvl, min_i ≤ adaptive_schedule_analysis base min_i max_i lvl ∧
      adaptive_schedule_analysis base min_i max_i lvl ≤ max_i := by
  have hc : adaptive_schedule_analysis base min_i max_i .critical = base / 4 := by
    show max min_i (min (base / 4) max_i) = base / 4
    rw [min_eq_left (by linarith), max_eq_right h1]
  have hm : adaptive_schedule_analysis base min_i max_i .medium = base := by
    show max min_i (min base max_i) = base
    rw [min_eq_left (by linarith), max_eq_right (by linarith)]
  have hl : adaptive_schedule_analysis base min_i max_i .low = base * (3/2) := by
    show max min_i (min (min (base * (3/2)) max_i) max_i) = base * (3/2)
    rw [min_eq_left h2, min_eq_left h2, max_eq_right (by linarith)]
  have hbound : ∀ raw : ℚ, min_i ≤ max min_i (min raw max_i) ∧
      max min_i (min raw max_i) ≤ max_i :=
    fun raw => ⟨le_max_left _ _, max_le (by linarith) (min_le_right _ _)⟩
  refine ⟨by rw [hc, hm]; linarith, by rw [hm, hl]; linarith, ?_⟩
  intro lvl
  cases lvl
  · exact hbound _
  · exact hbound _
  · exact hbound _
  · exact hbound _

/-- C9 — witness: the amended strict chain at `base = 100`, `min = 10`,
`max = 200`. -/
theorem C9_amended_witness :
    adaptive_schedule_analysis 100 10 200 .critical
      < adaptive_schedule_analysis 100 10 200 .medium ∧
    adaptive_schedule_analysis 100 10 200 .medium
      < adaptive_schedule_analysis 100 10 200 .low :=
  ⟨(C9_amended 100 10 200 (by norm_num) (by norm_num) (by norm_num)).1,
   (C9_amended 100 10 200 (by norm_num) (by norm_num) (by norm_num)).2.1⟩

end Forensiq
